import Mathlib

set_option autoImplicit false

/-!
Verification of the FMP data-collection client
(`src/config.py`, `src/fmp_client.py`) against its specification.

The Python code is shallowly embedded: parsed JSON bodies are an inductive
`Json` type, pandas data frames are lists of rows (a row is an ordered
association list from column name to `Json`), Python dictionaries are
ordered association lists, and a statement that can raise is modelled in
the `Except String` monad, with `except`-clauses modelled by matching on
the error case.  The network is a parameter: the low-level HTTP layer is a
value of `HttpResponse`, and the higher-level workflow takes the fetch
primitive `_get`'s observable behaviour as an oracle of type `Fetch`.
-/

/-- A parsed JSON value, as returned by `response.json()`. -/
inductive Json where
  | null : Json
  | bool : Bool → Json
  | num : Int → Json
  | str : String → Json
  | arr : List Json → Json
  | obj : List (String × Json) → Json
  deriving Repr

/-- Python truthiness (`if data:`) of a parsed JSON value: `None`, `False`,
`0`, `""`, `[]` and `{}` are falsy, everything else is truthy. -/
def Json.truthy : Json → Bool
  | .null => false
  | .bool b => b
  | .num n => n != 0
  | .str s => !s.isEmpty
  | .arr xs => !xs.isEmpty
  | .obj fs => !fs.isEmpty

/-- Truthiness of an optional JSON value (`None` from a failed fetch is
falsy). -/
def optTruthy : Option Json → Bool
  | none => false
  | some d => d.truthy

/-- Whether a parsed JSON value is a mapping. -/
def Json.isObj : Json → Bool
  | .obj _ => true
  | _ => false

/-- Whether an `Except` computation completed without a raised
exception. -/
def okB {ε α : Type} : Except ε α → Bool
  | .ok _ => true
  | .error _ => false

/-- An ordered association list modelling a Python `dict` (insertion
order preserved; updating an existing key keeps its position, a new key
is appended at the end, as in CPython). -/
abbrev PyDict (α : Type) := List (String × α)

/-- Python `d[k] = v` on a `dict`: overwrite the entry in place when the
key is present, append the new binding otherwise. -/
def dictInsert {α : Type} (k : String) (v : α) (d : PyDict α) : PyDict α :=
  if d.any (fun p => p.1 == k) then
    d.map (fun p => if p.1 == k then (k, v) else p)
  else d ++ [(k, v)]

/-- Python `d.get(k)` (first binding wins, as keys are unique in a real
dict). -/
def dictLookup {α : Type} (k : String) (d : PyDict α) : Option α :=
  (d.find? (fun p => p.1 == k)).map (·.2)

/-- One row of a pandas data frame: column name to cell value. -/
abbrev Row := PyDict Json

/-- A pandas data frame, as the ordered list of its rows. -/
abbrev DataFrame := List Row

/-- Models `pandas.DataFrame(data)` applied to a parsed JSON value, for
the shapes this client receives.  pandas dispatches a list argument on
its first element: when that is a mapping, the list-of-dicts path reads
every element's keys and raises (`AttributeError: ... has no attribute
keys`) unless all elements are mappings, each mapping becoming one row
with its fields as columns; when it is not a mapping, each element
becomes one row of a single positional column (named `"0"` here).
pandas raises `ValueError` on a bare scalar; a mapping argument is
column-oriented input, which this API never produces and which is
modelled as an error as well. -/
def pdDataFrame : Json → Except String DataFrame
  | .arr xs =>
    match xs with
    | [] => .ok []
    | .obj fs :: rest =>
      if rest.all Json.isObj then
        .ok ((Json.obj fs :: rest).map (fun x =>
          match x with
          | .obj gs => gs
          | v => [("0", v)]))
      else .error "AttributeError: row object has no keys"
    | x :: rest => .ok ((x :: rest).map (fun v => [("0", v)]))
  | _ => .error "ValueError: DataFrame constructor called with unsupported shape"

/-- Models `df[name] = value` with a scalar right-hand side: every row
gets the column set to the value (overwriting an existing cell in place,
otherwise appended as a new column). -/
def setColumn (name : String) (v : Json) (df : DataFrame) : DataFrame :=
  df.map (fun r => dictInsert name v r)

/-- The query-parameter dictionary of one request. -/
abbrev Params := PyDict String

/-- The observable outcome of one round trip of `requests.Session.get`:
either a response carrying an HTTP status code and a parsed JSON body,
or a network-level failure (connection error, timeout, ...), which
`requests` surfaces as a raised `RequestException`. -/
inductive HttpResponse where
  | resp : Nat → Json → HttpResponse
  | failure : String → HttpResponse

/-- What one call of `FMPClient._get` does, observably: the value it
returns (`None` is modelled as `none`), the caller's parameter
dictionary after the call (the method mutates it in place), whether the
error branch printed a message, and how long `time.sleep` paused (in
milliseconds). -/
structure GetOutcome where
  result : Option Json
  paramsAfter : Params
  logged : Bool
  sleptMs : Nat
  deriving Repr

namespace FMPClient

/-- The body of the `try` block of `FMPClient._get`, after the parameter
dictionary has been populated: `session.get` either fails (a raised
`RequestException`, the `.error` case) or yields a response;
a 403 status returns `None` at once; `raise_for_status` raises
`HTTPError` (a `RequestException`) for a 4xx/5xx status; otherwise the
call sleeps 0.3 s and returns the parsed body.  The result pairs the
returned value with the milliseconds slept. -/
def getTryBody (resp : HttpResponse) : Except String (Option Json × Nat) :=
  match resp with
  | .failure msg => .error msg
  | .resp status body =>
    if status == 403 then .ok (none, 0)
    else if 400 ≤ status ∧ status < 600 then .error ("HTTPError " ++ toString status)
    else .ok (some body, 300)

/-- Models `FMPClient._get`.  `params0 = none` models the `params=None`
default, replaced by a fresh empty dict; the API key is inserted into
the dictionary in place before the request.  The `except
RequestException` clause turns every error of the `try` body into a
logged message and a `None` result, so the function is total: no failure
of the modelled taxonomy escapes to the caller. -/
def get (apikey : String) (resp : HttpResponse) (params0 : Option Params) : GetOutcome :=
  let params := dictInsert "apikey" apikey (params0.getD [])
  match getTryBody resp with
  | .error _ => { result := none, paramsAfter := params, logged := true, sleptMs := 0 }
  | .ok (r, ms) => { result := r, paramsAfter := params, logged := false, sleptMs := ms }

end FMPClient

/-!
The adapters and the collection workflow only observe `_get` through its
return value (an `Option Json`, by the totality of `FMPClient.get`), so
they are parametrised by that observable behaviour: a `Fetch` oracle
maps an endpoint path and the caller-supplied query parameters to the
value `_get` returns for that call.
-/

/-- The observable behaviour of the fetch primitive, per endpoint and
caller-supplied parameters. -/
abbrev Fetch := String → Params → Option Json

/-- One issued request: endpoint path and caller-supplied parameters. -/
abbrev Request := String × Params

/-- Models `datetime.strftime("%Y-%m-%d")` of the date `d` days after
the epoch: an injective rendering of the day number (the calendar
rendering is likewise injective on dates, which is all the development
relies on). -/
def dateStr (d : Int) : String := toString d

/-- The `from`/`to` query parameters of a historical-price request for
the window of `days` days ending at the current date `now` (a day
number). -/
def histParams (now days : Int) : Params :=
  [("from", dateStr (now - days)), ("to", dateStr now)]

/-- Python's `k in data` on a parsed JSON value: key membership for a
mapping, element membership for an array, substring test for a string;
for any other value Python raises `TypeError: argument of type ... is
not iterable`. -/
def jsonContains (d : Json) (k : String) : Except String Bool :=
  match d with
  | .obj fs => .ok (fs.any (fun p => p.1 == k))
  | .arr xs => .ok (xs.any (fun x =>
      match x with
      | .str s => s == k
      | _ => false))
  | .str s => .ok (decide ((s.splitOn k).length ≠ 1))
  | _ => .error "TypeError: argument not iterable"

/-- Python's `data[k]` with a string key: field access on a mapping;
on an array or a string Python raises `TypeError` (indices must be
integers), on any other value as well. -/
def jsonIndex (d : Json) (k : String) : Except String Json :=
  match d with
  | .obj fs =>
    match dictLookup k fs with
    | some v => .ok v
    | none => .error "KeyError"
  | _ => .error "TypeError: indices must be integers"

/-- Python's `list.extend(data)`: appends the elements of an iterable
(array elements, mapping keys, string characters); raises `TypeError`
on a non-iterable value. -/
def pyExtend (acc : List Json) (d : Json) : Except String (List Json) :=
  match d with
  | .arr xs => .ok (acc ++ xs)
  | .obj fs => .ok (acc ++ fs.map (fun p => Json.str p.1))
  | .str s => .ok (acc ++ s.data.map (fun c => Json.str (String.mk [c])))
  | _ => .error "TypeError: argument not iterable"

namespace FMPClient

/-- Models `FMPClient.get_company_profile`: fetch `profile/{symbol}`
with no caller parameters; a truthy response is wrapped in a data frame
(whose construction can raise, propagated to the caller), anything else
yields the empty frame. -/
def get_company_profile (fetch : Fetch) (symbol : String) : Except String DataFrame :=
  match fetch ("profile/" ++ symbol) [] with
  | none => .ok []
  | some data => if data.truthy then pdDataFrame data else .ok []

/-- Models `FMPClient.get_quote`: same shape as the profile adapter,
against `quote/{symbol}`. -/
def get_quote (fetch : Fetch) (symbol : String) : Except String DataFrame :=
  match fetch ("quote/" ++ symbol) [] with
  | none => .ok []
  | some data => if data.truthy then pdDataFrame data else .ok []

/-- Models `FMPClient.get_historical_prices`: fetch
`historical-price-full/{symbol}` with the `from`/`to` window of `days`
days ending today; when the response is truthy and contains
`"historical"` (Python's `in`, which raises on a truthy non-iterable),
wrap that array in a frame and stamp every row's `symbol` column with
the queried symbol; otherwise return the empty frame. -/
def get_historical_prices (fetch : Fetch) (now : Int) (symbol : String)
    (days : Int) : Except String DataFrame :=
  let params := histParams now days
  match fetch ("historical-price-full/" ++ symbol) params with
  | none => .ok []
  | some data =>
    if data.truthy then
      match jsonContains data "historical" with
      | .error e => .error e
      | .ok false => .ok []
      | .ok true =>
        match jsonIndex data "historical" with
        | .error e => .error e
        | .ok v =>
          match pdDataFrame v with
          | .error e => .error e
          | .ok df => .ok (setColumn "symbol" (.str symbol) df)
    else .ok []

/-- The fixed market-index ticker list of `get_market_indexes`. -/
def indexSymbols : List String := ["^GSPC", "^DJI", "^IXIC"]

/-- The `for index in indexes:` loop of `get_market_indexes`: fetch
`quote/{index}` and extend `all_data` with each truthy response (Python
`extend`, which raises on a truthy non-iterable; there is no `try`
here, so such an error propagates). -/
def indexLoop (fetch : Fetch) (acc : List Json) : List String → Except String (List Json)
  | [] => .ok acc
  | idx :: rest =>
    match fetch ("quote/" ++ idx) [] with
    | none => indexLoop fetch acc rest
    | some data =>
      if data.truthy then
        match pyExtend acc data with
        | .error e => .error e
        | .ok acc2 => indexLoop fetch acc2 rest
      else indexLoop fetch acc rest

/-- Models `FMPClient.get_market_indexes`: run the index loop over the
fixed ticker list, then wrap the collected elements in one frame, empty
when nothing was collected. -/
def get_market_indexes (fetch : Fetch) : Except String DataFrame :=
  match indexLoop fetch [] indexSymbols with
  | .error e => .error e
  | .ok all_data =>
    if all_data.isEmpty then .ok [] else pdDataFrame (.arr all_data)

/-- Models the interpolated console line
`f"  ✓ Current quote: ${quote['price'].iloc[0]:.2f}"`, executed only
for a non-empty quote frame: it raises when the frame has no `price`
column or when the first `price` cell does not format as a float
(approximated as: succeeds when the first row carries a numeric or
boolean `price` cell). -/
def quotePricePrint (df : DataFrame) : Except String Unit :=
  match df with
  | [] => .error "IndexError: iloc out of bounds"
  | r :: _ =>
    match dictLookup "price" r with
    | some (.num _) => .ok ()
    | some (.bool _) => .ok ()
    | _ => .error "KeyError/TypeError: price"

/-- The request `get_company_profile symbol` issues. -/
def profileReq (symbol : String) : Request := ("profile/" ++ symbol, [])

/-- The request `get_quote symbol` issues. -/
def quoteReq (symbol : String) : Request := ("quote/" ++ symbol, [])

/-- The request the 365-day historical-price step of `fetch_all_data`
issues for one symbol. -/
def histReq (now : Int) (symbol : String) : Request :=
  ("historical-price-full/" ++ symbol, histParams now 365)

/-- The requests `get_market_indexes` issues, in order. -/
def indexReqs : List Request := indexSymbols.map (fun i => ("quote/" ++ i, []))

/-- What one iteration of the symbol loop of `fetch_all_data`
contributes: the frame appended to each of the three category
accumulators (`none` when nothing was appended for that category), the
requests issued before the iteration ended, and whether the `except`
clause at the loop boundary caught (and logged) an exception. -/
structure SymOut where
  profAdd : Option DataFrame
  quoteAdd : Option DataFrame
  histAdd : Option DataFrame
  reqs : List Request
  caught : Bool

/-- Models the body of one iteration of the symbol loop of
`fetch_all_data` (the `try` block and its `except Exception` clause):
fetch the profile, append it when non-empty; fetch the quote, append it
when non-empty and print its formatted price; fetch the 365-day
historical prices, append them when non-empty.  The first raised
exception ends the iteration, keeping the appends already made. -/
def symbolFetch (fetch : Fetch) (now : Int) (symbol : String) : SymOut :=
  match get_company_profile fetch symbol with
  | .error _ => ⟨none, none, none, [profileReq symbol], true⟩
  | .ok profile =>
    let pAdd := if profile.isEmpty then none else some profile
    match get_quote fetch symbol with
    | .error _ => ⟨pAdd, none, none, [profileReq symbol, quoteReq symbol], true⟩
    | .ok quote =>
      if quote.isEmpty then
        match get_historical_prices fetch now symbol 365 with
        | .error _ =>
          ⟨pAdd, none, none,
           [profileReq symbol, quoteReq symbol, histReq now symbol], true⟩
        | .ok historical =>
          ⟨pAdd, none, if historical.isEmpty then none else some historical,
           [profileReq symbol, quoteReq symbol, histReq now symbol], false⟩
      else
        match quotePricePrint quote with
        | .error _ =>
          ⟨pAdd, some quote, none, [profileReq symbol, quoteReq symbol], true⟩
        | .ok _ =>
          match get_historical_prices fetch now symbol 365 with
          | .error _ =>
            ⟨pAdd, some quote, none,
             [profileReq symbol, quoteReq symbol, histReq now symbol], true⟩
          | .ok historical =>
            ⟨pAdd, some quote, if historical.isEmpty then none else some historical,
             [profileReq symbol, quoteReq symbol, histReq now symbol], false⟩

/-- The three per-category accumulator lists of `fetch_all_data`
(`all_profiles`, `all_quotes`, `all_historical`): each element is one
appended per-symbol frame. -/
structure Accums where
  profiles : List DataFrame
  quotes : List DataFrame
  historical : List DataFrame

/-- The accumulators before the loop starts: three empty lists. -/
def emptyAccums : Accums := ⟨[], [], []⟩

/-- Prepend one iteration's contributions to the accumulators of the
remaining iterations (the loop runs left to right, so the head symbol's
appends come first). -/
def consAcc (o : SymOut) (acc : Accums) : Accums :=
  ⟨o.profAdd.toList ++ acc.profiles,
   o.quoteAdd.toList ++ acc.quotes,
   o.histAdd.toList ++ acc.historical⟩

/-- The symbol loop of `fetch_all_data` over the given symbol list, in
list order: the final accumulators and the issued requests. -/
def symbolLoop (fetch : Fetch) (now : Int) : List String → Accums × List Request
  | [] => (emptyAccums, [])
  | s :: rest =>
    let o := symbolFetch fetch now s
    let r := symbolLoop fetch now rest
    (consAcc o r.1, o.reqs ++ r.2)

end FMPClient

/-- The collection summary `fetch_all_data` returns: row counts per
category. -/
structure Summary where
  profiles : Nat
  quotes : Nat
  historical_records : Nat
  deriving Repr, DecidableEq

/-- The runtime configuration resolved by `config.py` (`class Config`
plus the module-level credential check). -/
structure Config where
  FMP_API_KEY : String
  FMP_BASE_URL : String
  COMPANIES : List String
  YEARS_TO_FETCH : Int
  RAW_DATA_PATH : String
  PROCESSED_DATA_PATH : String
  OUTPUT_PATH : String
  deriving Repr, DecidableEq

/-- The environment variables `config.py` reads (`os.getenv`: `none`
when the variable is unset). -/
structure Env where
  FMP_API_KEY : Option String
  COMPANIES : Option String
  YEARS_TO_FETCH : Option String
  deriving Repr, DecidableEq

/-- Whitespace as stripped by Python's `int(str)`. -/
def isPySpace (c : Char) : Bool :=
  c == ' ' || c == '\t' || c == '\n' || c == '\r'

/-- The value of a non-empty all-digit character list, `none`
otherwise. -/
def decDigits? (cs : List Char) : Option Nat :=
  if cs.isEmpty then none
  else cs.foldl (fun acc c =>
      match acc with
      | none => none
      | some n => if c.isDigit then some (n * 10 + (c.toNat - '0'.toNat)) else none)
    (some 0)

/-- Python's `int(s)` on a string: strip surrounding whitespace and
parse an optionally signed decimal literal, raising `ValueError`
otherwise (approximation: Python additionally allows underscore digit
separators, which this configuration never uses). -/
def pyInt (s : String) : Except String Int :=
  let t := ((s.data.dropWhile isPySpace).reverse.dropWhile isPySpace).reverse
  let parsed : Option Int :=
    match t with
    | '-' :: rest => (decDigits? rest).map (fun n => -(n : Int))
    | '+' :: rest => (decDigits? rest).map (fun n => (n : Int))
    | _ => (decDigits? t).map (fun n => (n : Int))
  match parsed with
  | some n => .ok n
  | none => .error ("ValueError: invalid literal for int: " ++ s)

/-- Models loading `config.py`: the class body binds the credential (as
read, possibly absent), splits the company list on commas (with the
documented default), and parses the lookback years with `int` (which
can raise); the module-level check then raises `ValueError` when the
credential is absent or empty (Python falsiness of `None` and `""`).
No network activity is involved: the result is a pure function of the
environment. -/
def loadConfig (env : Env) : Except String Config :=
  let companies := (env.COMPANIES.getD "AAPL,MSFT,GOOGL").splitOn ","
  match pyInt (env.YEARS_TO_FETCH.getD "3") with
  | .error e => .error e
  | .ok years =>
    match env.FMP_API_KEY with
    | none => .error "FMP_API_KEY not found! Please add it to your .env file"
    | some k =>
      if k = "" then
        .error "FMP_API_KEY not found! Please add it to your .env file"
      else
        .ok { FMP_API_KEY := k
              FMP_BASE_URL := "https://financialmodelingprep.com/api/v3"
              COMPANIES := companies
              YEARS_TO_FETCH := years
              RAW_DATA_PATH := "data/raw"
              PROCESSED_DATA_PATH := "data/processed"
              OUTPUT_PATH := "output" }

/-- The observable outcome of one completed run of
`FMPClient.fetch_all_data`: the returned summary, the contents written
to each of the four fixed output files (`none` when the file was not
written), and the issued requests in order. -/
structure RunResult where
  summary : Summary
  /-- File `data/raw/market_indexes.csv`, written only when non-empty. -/
  marketCsv : Option DataFrame
  /-- File `data/raw/company_profiles.csv`, written only when non-empty. -/
  profilesCsv : Option DataFrame
  /-- File `data/raw/current_quotes.csv`, written only when non-empty. -/
  quotesCsv : Option DataFrame
  /-- File `data/raw/historical_prices.csv`, written only when non-empty. -/
  historicalCsv : Option DataFrame
  requests : List Request

namespace FMPClient

/-- Models `FMPClient.fetch_all_data`: resolve the symbol list (the
explicit argument, else the configured companies), run the symbol loop,
fetch the market indexes (not wrapped in a `try`: an exception there
propagates, the `.error` case), write each non-empty table to its file,
and return the per-category row counts (zero for an empty
accumulator). -/
def fetch_all_data (fetch : Fetch) (now : Int) (cfg : Config)
    (symbols0 : Option (List String)) : Except String RunResult :=
  let symbols := symbols0.getD cfg.COMPANIES
  let st := symbolLoop fetch now symbols
  match get_market_indexes fetch with
  | .error e => .error e
  | .ok market =>
    let acc := st.1
    let profiles_df := acc.profiles.flatten
    let quotes_df := acc.quotes.flatten
    let historical_df := acc.historical.flatten
    .ok { summary :=
            { profiles := if acc.profiles.isEmpty then 0 else profiles_df.length
              quotes := if acc.quotes.isEmpty then 0 else quotes_df.length
              historical_records :=
                if acc.historical.isEmpty then 0 else historical_df.length }
          marketCsv := if market.isEmpty then none else some market
          profilesCsv := if acc.profiles.isEmpty then none else some profiles_df
          quotesCsv := if acc.quotes.isEmpty then none else some quotes_df
          historicalCsv := if acc.historical.isEmpty then none else some historical_df
          requests := st.2 ++ indexReqs }

end FMPClient



/-!
## Concrete instances used to settle the claims
-/

/-- A sample resolved configuration. -/
def cfg0 : Config :=
  { FMP_API_KEY := "demo-key"
    FMP_BASE_URL := "https://financialmodelingprep.com/api/v3"
    COMPANIES := ["AAPL", "MSFT", "GOOGL"]
    YEARS_TO_FETCH := 3
    RAW_DATA_PATH := "data/raw"
    PROCESSED_DATA_PATH := "data/processed"
    OUTPUT_PATH := "output" }

/-- A fetch oracle for a run in which every call is answered 403, so
`_get` returns `None` everywhere. -/
def allForbidden : Fetch := fun _ _ => none

/-- A fetch oracle under which symbol `"S"`'s profile step succeeds
with one row while its quote step raises inside `pd.DataFrame` (the
response `5` is truthy but not frame-shaped). -/
def fetchC2 : Fetch := fun ep _ =>
  if ep == "profile/" ++ "S" then
    some (.arr [.obj [("companyName", .str "S Inc")]])
  else if ep == "quote/" ++ "S" then some (.num 5)
  else none

/-- A fetch oracle under which only symbols `"B"` and `"C"` have
historical data (two days and one day respectively) and every other
call returns nothing. -/
def fetchC5 : Fetch := fun ep _ =>
  if ep == "historical-price-full/" ++ "B" then
    some (.obj [("historical",
      .arr [.obj [("close", .num 1)], .obj [("close", .num 2)]])])
  else if ep == "historical-price-full/" ++ "C" then
    some (.obj [("historical", .arr [.obj [("close", .num 3)]])])
  else none

/-- A fetch oracle whose market-index quote for `^GSPC` is the truthy
non-iterable JSON number `5`. -/
def fetchBad : Fetch := fun ep _ =>
  if ep == "quote/" ++ "^GSPC" then some (.num 5) else none

/-- The observable outcome of the all-forbidden single-symbol run used
as the C4 scenario: summary all zeros, no files written, all requests
still issued. -/
def run403 : RunResult :=
  { summary := ⟨0, 0, 0⟩
    marketCsv := none
    profilesCsv := none
    quotesCsv := none
    historicalCsv := none
    requests := [FMPClient.profileReq "XYZ", FMPClient.quoteReq "XYZ",
                 FMPClient.histReq 0 "XYZ"] ++ FMPClient.indexReqs }

/-!
## General helper lemmas
-/

/-- Auxiliary: when some entry of `d` matches the key, overwriting every
matching entry with `(k, v)` makes `(k, v)` the first match. -/
theorem find_map_overwrite {α : Type} (k : String) (v : α) :
    ∀ (d : PyDict α), d.any (fun p => p.1 == k) = true →
      (d.map (fun p => if p.1 == k then (k, v) else p)).find? (fun p => p.1 == k)
        = some (k, v) := by
  intro d
  induction d with
  | nil => simp
  | cons p rest ih =>
    intro h
    by_cases hp : (p.1 == k) = true
    · rw [List.map_cons, if_pos hp, List.find?_cons_of_pos _ (by simp)]
    · have hrest : rest.any (fun p => p.1 == k) = true := by
        simpa [List.any_cons, hp] using h
      rw [List.map_cons, if_neg hp, List.find?_cons_of_neg _ (by simpa using hp)]
      exact ih hrest

/-- Auxiliary: a search skips a block with no matching entry. -/
theorem find_append_of_none {α : Type} (t : String × α → Bool) :
    ∀ (d l : PyDict α), d.any t = false → (d ++ l).find? t = l.find? t := by
  intro d l
  induction d with
  | nil => simp
  | cons p rest ih =>
    intro h
    have hp : t p = false := by
      by_contra hc
      simp only [Bool.not_eq_false] at hc
      simp [List.any_cons, hc] at h
    have hrest : rest.any t = false := by
      by_contra hc
      simp only [Bool.not_eq_false] at hc
      simp [List.any_cons, hc] at h
    simp only [List.cons_append, List.find?, hp]
    exact ih hrest

/-- Looking up a key right after `dictInsert`ing it finds the inserted
value. -/
theorem dictLookup_dictInsert {α : Type} (k : String) (v : α) (d : PyDict α) :
    dictLookup k (dictInsert k v d) = some v := by
  unfold dictInsert dictLookup
  by_cases h : d.any (fun p => p.1 == k)
  · rw [if_pos h, find_map_overwrite k v d h]
    rfl
  · rw [if_neg h, find_append_of_none _ d _ (by simp only [Bool.not_eq_true] at h; exact h)]
    simp [List.find?]

/-- Inserting changes the dictionary whenever the key was not
already bound (first binding) to the inserted value. -/
theorem dictInsert_ne_of_lookup_ne {α : Type} (k : String) (v : α) (d : PyDict α)
    (h : dictLookup k d ≠ some v) : dictInsert k v d ≠ d := by
  intro heq
  apply h
  rw [← heq]
  exact dictLookup_dictInsert k v d

/-- Two string concatenations whose left parts start with different
characters are different strings. -/
theorem append_ne_of_head_ne (a b s t : String) (ca cb : Char)
    (la lb : List Char) (ha : a.data = ca :: la) (hb : b.data = cb :: lb)
    (hne : ca ≠ cb) : a ++ s ≠ b ++ t := by
  intro h
  have hd : (a ++ s).data = (b ++ t).data := congrArg String.data h
  rw [String.data_append, String.data_append, ha, hb] at hd
  simp only [List.cons_append, List.cons.injEq] at hd
  exact hne hd.1

/-- A historical-price endpoint is never a profile endpoint. -/
theorem hist_ne_profile (s t : String) :
    "historical-price-full/" ++ s ≠ "profile/" ++ t :=
  append_ne_of_head_ne _ _ _ _ 'h' 'p' _ _ rfl rfl (by decide)

/-- A historical-price endpoint is never a quote endpoint. -/
theorem hist_ne_quote (s t : String) :
    "historical-price-full/" ++ s ≠ "quote/" ++ t :=
  append_ne_of_head_ne _ _ _ _ 'h' 'q' _ _ rfl rfl (by decide)

/-- Every row of a frame whose column was just set carries the set
value in that column. -/
theorem setColumn_lookup (name : String) (v : Json) (df : DataFrame) :
    ∀ r ∈ setColumn name v df, dictLookup name r = some v := by
  intro r hr
  unfold setColumn at hr
  rw [List.mem_map] at hr
  obtain ⟨r0, _, hr0⟩ := hr
  rw [← hr0]
  exact dictLookup_dictInsert name v r0

/-!
## Claim C1 — error taxonomy of `_get`
-/

/-- C1: for every call of the fetch primitive `_get` — total by
construction, so no failure of the modelled taxonomy propagates to the
caller as an exception — a 403 response yields an absent result without
an error log; any other non-success status (4xx/5xx, the statuses
`raise_for_status` raises for) and any network-level failure yields an
absent result with the error logged. -/
theorem c1_get_error_taxonomy (apikey : String) (resp : HttpResponse)
    (params0 : Option Params) :
    (∀ body, resp = .resp 403 body →
       (FMPClient.get apikey resp params0).result = none ∧
       (FMPClient.get apikey resp params0).logged = false) ∧
    (∀ status body, resp = .resp status body → status ≠ 403 →
       400 ≤ status → status < 600 →
       (FMPClient.get apikey resp params0).result = none ∧
       (FMPClient.get apikey resp params0).logged = true) ∧
    (∀ msg, resp = .failure msg →
       (FMPClient.get apikey resp params0).result = none ∧
       (FMPClient.get apikey resp params0).logged = true) := by
  refine ⟨?_, ?_, ?_⟩
  · intro body h
    subst h
    simp [FMPClient.get, FMPClient.getTryBody]
  · intro status body h h403 h400 h600
    subst h
    simp [FMPClient.get, FMPClient.getTryBody, h403, h400, h600]
  · intro msg h
    subst h
    simp [FMPClient.get, FMPClient.getTryBody]

/-- C1 witness: the taxonomy at a 403 response, a 500 response and a
connection failure. -/
theorem c1_get_error_taxonomy_witness :
    ((FMPClient.get "k" (.resp 403 Json.null) none).result = none ∧
     (FMPClient.get "k" (.resp 403 Json.null) none).logged = false) ∧
    ((FMPClient.get "k" (.resp 500 Json.null) none).result = none ∧
     (FMPClient.get "k" (.resp 500 Json.null) none).logged = true) ∧
    ((FMPClient.get "k" (.failure "connection reset") none).result = none ∧
     (FMPClient.get "k" (.failure "connection reset") none).logged = true) :=
  ⟨(c1_get_error_taxonomy "k" (.resp 403 Json.null) none).1 Json.null rfl,
   (c1_get_error_taxonomy "k" (.resp 500 Json.null) none).2.1 500 Json.null rfl
     (by decide) (by decide) (by decide),
   (c1_get_error_taxonomy "k" (.failure "connection reset") none).2.2
     "connection reset" rfl⟩

/-!
## Claim C3 — the pacing sleep
-/

/-- C3 counterexample: the claim says `_get` pauses ≈300 ms after
*every* call; on a 403 response the code returns before reaching
`time.sleep(0.3)`, so no pause happens. -/
theorem c3_no_sleep_on_403 :
    (FMPClient.get "k" (.resp 403 Json.null) none).sleptMs = 0 := rfl

/-- C3 (amended): `_get` pauses 300 ms exactly when the call succeeds
(2xx response, a result is returned); a 403, another error status or a
network failure returns or raises before reaching `time.sleep`. -/
theorem c3_sleep_iff_success (apikey : String) (resp : HttpResponse)
    (params0 : Option Params) :
    (FMPClient.get apikey resp params0).sleptMs =
      if (FMPClient.get apikey resp params0).result.isSome then 300 else 0 := by
  cases resp with
  | failure msg => simp [FMPClient.get, FMPClient.getTryBody]
  | resp status body =>
    by_cases h403 : status == 403
    · simp [FMPClient.get, FMPClient.getTryBody, h403]
    · by_cases herr : 400 ≤ status ∧ status < 600
      · simp [FMPClient.get, FMPClient.getTryBody, h403, herr]
      · simp [FMPClient.get, FMPClient.getTryBody, h403, herr]

/-!
## Claim C10 — in-place mutation of the caller's parameter dict
-/

/-- C10 counterexample: the claim says the caller's mapping is never
left unchanged; when it already binds `apikey` to the credential, the
overwrite leaves it exactly as it was. -/
theorem c10_params_unchanged_when_already_bound :
    (FMPClient.get "k" (.resp 200 Json.null) (some [("apikey", "k")])).paramsAfter
      = [("apikey", "k")] := rfl

/-- C10 (amended): `_get` mutates a caller-supplied parameter mapping
in place, so that afterwards it is the original with the credential
bound under `"apikey"` (overwriting an existing entry); it therefore
differs from the original whenever the original did not already bind
`"apikey"` to the credential. -/
theorem c10_params_mutated_in_place (apikey : String) (resp : HttpResponse)
    (d : Params) :
    (FMPClient.get apikey resp (some d)).paramsAfter = dictInsert "apikey" apikey d ∧
    dictLookup "apikey" (FMPClient.get apikey resp (some d)).paramsAfter = some apikey ∧
    (dictLookup "apikey" d ≠ some apikey →
      (FMPClient.get apikey resp (some d)).paramsAfter ≠ d) := by
  have hafter : (FMPClient.get apikey resp (some d)).paramsAfter
      = dictInsert "apikey" apikey d := by
    cases resp with
    | failure msg => simp [FMPClient.get, FMPClient.getTryBody]
    | resp status body =>
      by_cases h403 : status == 403
      · simp [FMPClient.get, FMPClient.getTryBody, h403]
      · by_cases herr : 400 ≤ status ∧ status < 600
        · simp [FMPClient.get, FMPClient.getTryBody, h403, herr]
        · simp [FMPClient.get, FMPClient.getTryBody, h403, herr]
  refine ⟨hafter, ?_, ?_⟩
  · rw [hafter]
    exact dictLookup_dictInsert _ _ _
  · intro hlk
    rw [hafter]
    exact dictInsert_ne_of_lookup_ne _ _ _ hlk

/-- C10 witness: a mapping that did not bind the credential is changed
by the call (the credential is appended), and the lookup finds it. -/
theorem c10_params_mutated_in_place_witness :
    (FMPClient.get "k" (.resp 200 Json.null) (some [("from", "0")])).paramsAfter
      = dictInsert "apikey" "k" [("from", "0")] ∧
    dictLookup "apikey"
      (FMPClient.get "k" (.resp 200 Json.null) (some [("from", "0")])).paramsAfter
      = some "k" ∧
    (FMPClient.get "k" (.resp 200 Json.null) (some [("from", "0")])).paramsAfter
      ≠ [("from", "0")] :=
  have h := c10_params_mutated_in_place "k" (.resp 200 Json.null) [("from", "0")]
  ⟨h.1, h.2.1, h.2.2 (by decide)⟩

/-!
## Claim C8 — configuration resolution
-/

/-- C8 counterexample: the claim says configuration resolution raises
exactly when the credential is absent or empty; with the credential
present and non-empty but `YEARS_TO_FETCH` set to a non-numeric string,
the class body's `int(...)` raises first, so resolution fails anyway. -/
theorem c8_fails_with_bad_years :
    loadConfig ⟨some "real-key", none, some "three"⟩
      = .error "ValueError: invalid literal for int: three" := rfl

/-- C8 (amended): provided the lookback-years environment value (or its
default `"3"`) parses as an integer, configuration resolution fails
exactly when the credential is absent or empty; on success the
credential, the comma-split company list and the parsed lookback years
are exposed unchanged.  `loadConfig` is a pure function of the
environment, so the failure involves no network activity. -/
theorem c8_config_resolution (env : Env)
    (hyears : okB (pyInt (env.YEARS_TO_FETCH.getD "3")) = true) :
    (okB (loadConfig env) = true ↔ env.FMP_API_KEY.getD "" ≠ "") ∧
    (∀ cfg, loadConfig env = .ok cfg →
      env.FMP_API_KEY = some cfg.FMP_API_KEY ∧
      cfg.COMPANIES = (env.COMPANIES.getD "AAPL,MSFT,GOOGL").splitOn "," ∧
      pyInt (env.YEARS_TO_FETCH.getD "3") = .ok cfg.YEARS_TO_FETCH ∧
      cfg.FMP_BASE_URL = "https://financialmodelingprep.com/api/v3") := by
  unfold loadConfig
  cases hp : pyInt (env.YEARS_TO_FETCH.getD "3") with
  | error e => rw [hp] at hyears; simp [okB] at hyears
  | ok years =>
    cases hk : env.FMP_API_KEY with
    | none => simp [okB]
    | some k =>
      by_cases hke : k = ""
      · simp [okB, hke]
      · simp only [hke, if_false]
        constructor
        · simp [okB, hke]
        · intro cfg hcfg
          injection hcfg with hcfg
          subst hcfg
          simp

/-- C8 witness: with the credential set and the other variables unset,
resolution succeeds and exposes the credential, the default company
list and the default lookback years unchanged. -/
theorem c8_config_resolution_witness :
    (okB (loadConfig ⟨some "real-key", none, none⟩) = true ↔
      (some "real-key" : Option String).getD "" ≠ "") ∧
    (∀ cfg, loadConfig ⟨some "real-key", none, none⟩ = .ok cfg →
      (some "real-key" : Option String) = some cfg.FMP_API_KEY ∧
      cfg.COMPANIES = ((none : Option String).getD "AAPL,MSFT,GOOGL").splitOn "," ∧
      pyInt ((none : Option String).getD "3") = .ok cfg.YEARS_TO_FETCH ∧
      cfg.FMP_BASE_URL = "https://financialmodelingprep.com/api/v3") :=
  c8_config_resolution ⟨some "real-key", none, none⟩ (by decide)

/-!
## Claim C6 — the historical-price adapter
-/

/-- A key that `dictLookup` misses matches no entry. -/
theorem any_eq_false_of_dictLookup_none {α : Type} (k : String) (fs : PyDict α)
    (h : dictLookup k fs = none) : fs.any (fun p => p.1 == k) = false := by
  unfold dictLookup at h
  rw [Option.map_eq_none'] at h
  rw [List.find?_eq_none] at h
  rw [List.any_eq_false]
  intro x hx
  exact h x hx

/-- Every record of a table returned by `get_historical_prices`
carries a `symbol` field equal to the queried symbol. -/
theorem get_historical_prices_stamp (fetch : Fetch) (now : Int) (symbol : String)
    (days : Int) :
    ∀ df, FMPClient.get_historical_prices fetch now symbol days = .ok df →
      ∀ r ∈ df, dictLookup "symbol" r = some (Json.str symbol) := by
  intro df hdf r hr
  unfold FMPClient.get_historical_prices at hdf
  dsimp only at hdf
  cases hfd : fetch ("historical-price-full/" ++ symbol) (histParams now days) with
  | none =>
    rw [hfd] at hdf
    injection hdf with h
    subst h
    cases hr
  | some data =>
    rw [hfd] at hdf
    dsimp only at hdf
    by_cases htr : data.truthy = true
    · rw [if_pos htr] at hdf
      cases hct : jsonContains data "historical" with
      | error e => rw [hct] at hdf; cases hdf
      | ok b =>
        rw [hct] at hdf
        cases b with
        | false =>
          injection hdf with h
          subst h
          cases hr
        | true =>
          dsimp only at hdf
          cases hix : jsonIndex data "historical" with
          | error e => rw [hix] at hdf; cases hdf
          | ok v =>
            rw [hix] at hdf
            dsimp only at hdf
            cases hpd : pdDataFrame v with
            | error e => rw [hpd] at hdf; cases hdf
            | ok df0 =>
              rw [hpd] at hdf
              injection hdf with h
              subst h
              exact setColumn_lookup "symbol" (.str symbol) df0 r hr
    · simp only [Bool.not_eq_true] at htr
      rw [htr] at hdf
      simp only [Bool.false_eq_true, if_false] at hdf
      injection hdf with h
      subst h
      cases hr

/-- C6 counterexample: the claim says `get_historical_prices` returns
an empty table whenever the response lacks the `"historical"` key; on
the truthy non-iterable response `5` the membership test
`'historical' in data` raises `TypeError` instead, so no table at all
is returned. -/
theorem c6_hist_raises_on_scalar :
    FMPClient.get_historical_prices (fun _ _ => some (Json.num 5)) 365 "AAPL" 365
      = .error "TypeError: argument not iterable" := rfl

/-- C6 (amended): `get_historical_prices` returns an empty table when
the response is absent, falsy, or a mapping without the `"historical"`
key (a truthy non-mapping response can instead raise `TypeError` in the
membership test), and every record of a returned table carries a
`symbol` field equal to the queried symbol. -/
theorem c6_hist_stamp_and_empty (fetch : Fetch) (now : Int) (symbol : String)
    (days : Int) :
    (fetch ("historical-price-full/" ++ symbol) (histParams now days) = none →
      FMPClient.get_historical_prices fetch now symbol days = .ok []) ∧
    (∀ d, fetch ("historical-price-full/" ++ symbol) (histParams now days) = some d →
      d.truthy = false →
      FMPClient.get_historical_prices fetch now symbol days = .ok []) ∧
    (∀ fs, fetch ("historical-price-full/" ++ symbol) (histParams now days)
        = some (.obj fs) →
      dictLookup "historical" fs = none →
      FMPClient.get_historical_prices fetch now symbol days = .ok []) ∧
    (∀ df, FMPClient.get_historical_prices fetch now symbol days = .ok df →
      ∀ r ∈ df, dictLookup "symbol" r = some (.str symbol)) := by
  refine ⟨?_, ?_, ?_, ?_⟩
  · intro h
    simp [FMPClient.get_historical_prices, h]
  · intro d hd htr
    simp [FMPClient.get_historical_prices, hd, htr]
  · intro fs hfs hlk
    have hany := any_eq_false_of_dictLookup_none "historical" fs hlk
    by_cases htr : (Json.obj fs).truthy = true
    · simp [FMPClient.get_historical_prices, hfs, htr, jsonContains, hany]
    · simp only [Bool.not_eq_true] at htr
      simp [FMPClient.get_historical_prices, hfs, htr]
  · exact get_historical_prices_stamp fetch now symbol days

/-- C6 witness: a one-row historical response is stamped with the
queried symbol, and an absent response yields the empty table. -/
theorem c6_hist_stamp_and_empty_witness :
    dictLookup "symbol" [("close", Json.num 10), ("symbol", Json.str "IBM")]
      = some (Json.str "IBM") ∧
    FMPClient.get_historical_prices (fun _ _ => none) 365 "IBM" 365 = .ok [] :=
  ⟨(c6_hist_stamp_and_empty
      (fun e _ => if e == "historical-price-full/" ++ "IBM" then
        some (.obj [("historical", .arr [.obj [("close", .num 10)]])]) else none)
      365 "IBM" 365).2.2.2
      [[("close", Json.num 10), ("symbol", Json.str "IBM")]] rfl
      [("close", Json.num 10), ("symbol", Json.str "IBM")] (by simp),
   (c6_hist_stamp_and_empty (fun _ _ => none) 365 "IBM" 365).1 rfl⟩

/-!
## The symbol loop, characterised
-/

/-- The profile accumulator collects the per-symbol profile
contributions in symbol-list order. -/
theorem symbolLoop_profiles (fetch : Fetch) (now : Int) :
    ∀ syms : List String,
      (FMPClient.symbolLoop fetch now syms).1.profiles
        = syms.filterMap (fun s => (FMPClient.symbolFetch fetch now s).profAdd) := by
  intro syms
  induction syms with
  | nil => rfl
  | cons s rest ih =>
    simp only [FMPClient.symbolLoop, FMPClient.consAcc, List.filterMap_cons]
    cases h : (FMPClient.symbolFetch fetch now s).profAdd <;>
      simp [h, ih, Option.toList]

/-- The quote accumulator collects the per-symbol quote contributions
in symbol-list order. -/
theorem symbolLoop_quotes (fetch : Fetch) (now : Int) :
    ∀ syms : List String,
      (FMPClient.symbolLoop fetch now syms).1.quotes
        = syms.filterMap (fun s => (FMPClient.symbolFetch fetch now s).quoteAdd) := by
  intro syms
  induction syms with
  | nil => rfl
  | cons s rest ih =>
    simp only [FMPClient.symbolLoop, FMPClient.consAcc, List.filterMap_cons]
    cases h : (FMPClient.symbolFetch fetch now s).quoteAdd <;>
      simp [h, ih, Option.toList]

/-- The historical accumulator collects the per-symbol historical
contributions in symbol-list order. -/
theorem symbolLoop_historical (fetch : Fetch) (now : Int) :
    ∀ syms : List String,
      (FMPClient.symbolLoop fetch now syms).1.historical
        = syms.filterMap (fun s => (FMPClient.symbolFetch fetch now s).histAdd) := by
  intro syms
  induction syms with
  | nil => rfl
  | cons s rest ih =>
    simp only [FMPClient.symbolLoop, FMPClient.consAcc, List.filterMap_cons]
    cases h : (FMPClient.symbolFetch fetch now s).histAdd <;>
      simp [h, ih, Option.toList]

/-- The symbol loop issues the per-symbol requests in symbol-list
order. -/
theorem symbolLoop_reqs (fetch : Fetch) (now : Int) :
    ∀ syms : List String,
      (FMPClient.symbolLoop fetch now syms).2
        = (syms.map (fun s => (FMPClient.symbolFetch fetch now s).reqs)).flatten := by
  intro syms
  induction syms with
  | nil => rfl
  | cons s rest ih =>
    simp only [FMPClient.symbolLoop, List.map_cons, List.flatten_cons]
    rw [ih]

/-- When the symbol-boundary `except` clause caught an exception, the
final (historical) step contributed nothing: the failure happened at or
before it. -/
theorem symbolFetch_caught_hist (fetch : Fetch) (now : Int) (sym : String) :
    (FMPClient.symbolFetch fetch now sym).caught = true →
    (FMPClient.symbolFetch fetch now sym).histAdd = none := by
  unfold FMPClient.symbolFetch
  repeat' split
  all_goals simp

/-- One symbol's iteration issues a prefix of its three requests. -/
theorem symbolFetch_reqs_cases (fetch : Fetch) (now : Int) (sym : String) :
    (FMPClient.symbolFetch fetch now sym).reqs = [FMPClient.profileReq sym] ∨
    (FMPClient.symbolFetch fetch now sym).reqs
      = [FMPClient.profileReq sym, FMPClient.quoteReq sym] ∨
    (FMPClient.symbolFetch fetch now sym).reqs
      = [FMPClient.profileReq sym, FMPClient.quoteReq sym, FMPClient.histReq now sym] := by
  unfold FMPClient.symbolFetch
  repeat' split
  all_goals simp

/-- A historical contribution of one symbol iteration comes from a
successful `get_historical_prices` call with the 365-day window. -/
theorem symbolFetch_histAdd_src (fetch : Fetch) (now : Int) (sym : String) :
    (FMPClient.symbolFetch fetch now sym).histAdd = none ∨
    ∃ h, FMPClient.get_historical_prices fetch now sym 365 = .ok h ∧
      (FMPClient.symbolFetch fetch now sym).histAdd = some h := by
  unfold FMPClient.symbolFetch
  repeat' split
  all_goals first
    | exact Or.inl rfl
    | exact Or.inr ⟨_, by assumption, rfl⟩

/-- Every row of a historical contribution is stamped with its
originating symbol. -/
theorem symbolFetch_hist_stamp (fetch : Fetch) (now : Int) (sym : String) :
    ∀ df, (FMPClient.symbolFetch fetch now sym).histAdd = some df →
      ∀ r ∈ df, dictLookup "symbol" r = some (Json.str sym) := by
  intro df hdf
  rcases symbolFetch_histAdd_src fetch now sym with h | ⟨h0, hok, hsome⟩
  · rw [h] at hdf; cases hdf
  · rw [hsome] at hdf
    injection hdf with h1
    subst h1
    exact get_historical_prices_stamp fetch now sym 365 h0 hok

/-- The row count reported for an accumulator equals the row count of
its concatenation (zero for the empty accumulator). -/
theorem count_eq_flatten_length {α : Type} (l : List (List α)) :
    (if l.isEmpty then 0 else l.flatten.length) = l.flatten.length := by
  cases l <;> simp

/-- Inversion of a completed `fetch_all_data` run: every field of the
returned record, in terms of the symbol loop's accumulators and
requests and of the market-index table. -/
theorem fetch_all_data_fields (fetch : Fetch) (now : Int) (cfg : Config)
    (symbols0 : Option (List String)) (r : RunResult)
    (h : FMPClient.fetch_all_data fetch now cfg symbols0 = .ok r) :
    r.summary =
      ⟨(FMPClient.symbolLoop fetch now (symbols0.getD cfg.COMPANIES)).1.profiles.flatten.length,
       (FMPClient.symbolLoop fetch now (symbols0.getD cfg.COMPANIES)).1.quotes.flatten.length,
       (FMPClient.symbolLoop fetch now (symbols0.getD cfg.COMPANIES)).1.historical.flatten.length⟩ ∧
    r.profilesCsv =
      (if (FMPClient.symbolLoop fetch now (symbols0.getD cfg.COMPANIES)).1.profiles.isEmpty
       then none
       else some (FMPClient.symbolLoop fetch now (symbols0.getD cfg.COMPANIES)).1.profiles.flatten) ∧
    r.quotesCsv =
      (if (FMPClient.symbolLoop fetch now (symbols0.getD cfg.COMPANIES)).1.quotes.isEmpty
       then none
       else some (FMPClient.symbolLoop fetch now (symbols0.getD cfg.COMPANIES)).1.quotes.flatten) ∧
    r.historicalCsv =
      (if (FMPClient.symbolLoop fetch now (symbols0.getD cfg.COMPANIES)).1.historical.isEmpty
       then none
       else some (FMPClient.symbolLoop fetch now (symbols0.getD cfg.COMPANIES)).1.historical.flatten) ∧
    (∃ market, FMPClient.get_market_indexes fetch = .ok market ∧
       r.marketCsv = (if market.isEmpty then none else some market)) ∧
    r.requests = (FMPClient.symbolLoop fetch now (symbols0.getD cfg.COMPANIES)).2
      ++ FMPClient.indexReqs := by
  unfold FMPClient.fetch_all_data at h
  dsimp only at h
  cases hm : FMPClient.get_market_indexes fetch with
  | error e => rw [hm] at h; cases h
  | ok market =>
    rw [hm] at h
    dsimp only at h
    injection h with h
    subst h
    refine ⟨?_, rfl, rfl, rfl, ⟨market, rfl, rfl⟩, rfl⟩
    dsimp only
    rw [count_eq_flatten_length, count_eq_flatten_length, count_eq_flatten_length]

/-- An option defined by an `if`-guarded write: when it holds a value,
the value is the guarded one, and it holds a value exactly when the
guard is off. -/
theorem opt_if_cases {α : Type} (b : Bool) (x : α) (o : Option α)
    (ho : o = if b then none else some x) :
    (o.isSome ↔ b = false) ∧ (∀ y, o = some y → y = x) := by
  subst ho
  cases b <;> simp

/-!
## Claim C2 — the symbol-boundary exception handler
-/

/-- C2 counterexample: the claim says a symbol whose processing raises
contributes no rows to any accumulator; under `fetchC2` symbol `"S"`'s
quote step raises after its profile was already appended, so the
exception is caught *and* the profile contribution remains. -/
theorem c2_caught_yet_contributed :
    (FMPClient.symbolFetch fetchC2 0 "S").caught = true ∧
    (FMPClient.symbolFetch fetchC2 0 "S").profAdd
      = some [[("companyName", Json.str "S Inc")]] := ⟨rfl, rfl⟩

/-- C2 (amended): an exception raised while processing one symbol's
three calls is caught at the symbol-iteration boundary and logged; the
steps from the failure onward contribute no rows (in particular the
final, historical step contributes nothing), while appends completed
before the failure remain; and the loop processes the remaining
symbols unconditionally. -/
theorem c2_symbol_failure_caught (fetch : Fetch) (now : Int) (sym : String)
    (rest : List String) :
    ((FMPClient.symbolFetch fetch now sym).caught = true →
      (FMPClient.symbolFetch fetch now sym).histAdd = none) ∧
    FMPClient.symbolLoop fetch now (sym :: rest)
      = (FMPClient.consAcc (FMPClient.symbolFetch fetch now sym)
           (FMPClient.symbolLoop fetch now rest).1,
         (FMPClient.symbolFetch fetch now sym).reqs
           ++ (FMPClient.symbolLoop fetch now rest).2) :=
  ⟨symbolFetch_caught_hist fetch now sym, rfl⟩

/-- C2 witness: under `fetchC2`, symbol `"S"`'s caught failure leaves
its historical contribution absent and the loop equation holds for the
singleton list. -/
theorem c2_symbol_failure_caught_witness :
    (FMPClient.symbolFetch fetchC2 0 "S").histAdd = none ∧
    FMPClient.symbolLoop fetchC2 0 ["S"]
      = (FMPClient.consAcc (FMPClient.symbolFetch fetchC2 0 "S")
           (FMPClient.symbolLoop fetchC2 0 []).1,
         (FMPClient.symbolFetch fetchC2 0 "S").reqs
           ++ (FMPClient.symbolLoop fetchC2 0 []).2) :=
  ⟨(c2_symbol_failure_caught fetchC2 0 "S" []).1 rfl,
   (c2_symbol_failure_caught fetchC2 0 "S" []).2⟩

/-!
## Claim C5 — symbol-ordered concatenation
-/

/-- C5: each category's combined table is the concatenation, in
symbol-list order, of exactly the non-empty per-symbol contributions;
every row of a historical contribution is stamped with its originating
symbol; and a completed run's historical output file holds that
ordered concatenation. -/
theorem c5_concat_in_symbol_order (fetch : Fetch) (now : Int) (cfg : Config)
    (syms : List String) :
    ((FMPClient.symbolLoop fetch now syms).1.profiles
       = syms.filterMap (fun s => (FMPClient.symbolFetch fetch now s).profAdd)) ∧
    ((FMPClient.symbolLoop fetch now syms).1.quotes
       = syms.filterMap (fun s => (FMPClient.symbolFetch fetch now s).quoteAdd)) ∧
    ((FMPClient.symbolLoop fetch now syms).1.historical
       = syms.filterMap (fun s => (FMPClient.symbolFetch fetch now s).histAdd)) ∧
    (∀ s df, (FMPClient.symbolFetch fetch now s).histAdd = some df →
       ∀ r ∈ df, dictLookup "symbol" r = some (Json.str s)) ∧
    (∀ r, FMPClient.fetch_all_data fetch now cfg (some syms) = .ok r →
       ∀ df, r.historicalCsv = some df →
         df = (syms.filterMap
           (fun s => (FMPClient.symbolFetch fetch now s).histAdd)).flatten) := by
  refine ⟨symbolLoop_profiles fetch now syms, symbolLoop_quotes fetch now syms,
    symbolLoop_historical fetch now syms,
    fun s => symbolFetch_hist_stamp fetch now s, ?_⟩
  intro r hr df hdf
  obtain ⟨-, -, -, hh, -, -⟩ := fetch_all_data_fields fetch now cfg (some syms) r hr
  have := (opt_if_cases _ _ _ hh).2 df hdf
  rw [this]
  simp only [Option.getD_some]
  rw [symbolLoop_historical fetch now syms]

/-- C5 witness: with symbols `[A, B, C]` where only `B` and `C` have
historical data, the combined historical table is exactly `B`'s two
rows followed by `C`'s row, each stamped with its originating
symbol. -/
theorem c5_concat_in_symbol_order_witness :
    (FMPClient.symbolLoop fetchC5 0 ["A", "B", "C"]).1.historical
      = ["A", "B", "C"].filterMap
          (fun s => (FMPClient.symbolFetch fetchC5 0 s).histAdd) ∧
    (FMPClient.symbolLoop fetchC5 0 ["A", "B", "C"]).1.historical.flatten
      = [[("close", Json.num 1), ("symbol", Json.str "B")],
         [("close", Json.num 2), ("symbol", Json.str "B")],
         [("close", Json.num 3), ("symbol", Json.str "C")]] ∧
    dictLookup "symbol" [("close", Json.num 1), ("symbol", Json.str "B")]
      = some (Json.str "B") :=
  ⟨(c5_concat_in_symbol_order fetchC5 0 cfg0 ["A", "B", "C"]).2.2.1,
   rfl,
   (c5_concat_in_symbol_order fetchC5 0 cfg0 ["A", "B", "C"]).2.2.2.1 "B"
     [[("close", Json.num 1), ("symbol", Json.str "B")],
      [("close", Json.num 2), ("symbol", Json.str "B")]] rfl
     [("close", Json.num 1), ("symbol", Json.str "B")] (by simp)⟩

/-!
## Claim C4 — summary counts and conditional file writes
-/

/-- C4: a completed run's summary reports, per category, the row count
of the accumulator's concatenation (zero when the accumulator is
empty, since an empty concatenation has no rows); each category's
output file is written exactly when its accumulator is non-empty, and
then holds exactly the concatenated table. -/
theorem c4_summary_counts_and_file_writes (fetch : Fetch) (now : Int) (cfg : Config)
    (symbols0 : Option (List String)) (r : RunResult)
    (h : FMPClient.fetch_all_data fetch now cfg symbols0 = .ok r) :
    (r.summary.profiles
       = (FMPClient.symbolLoop fetch now (symbols0.getD cfg.COMPANIES)).1.profiles.flatten.length ∧
     r.summary.quotes
       = (FMPClient.symbolLoop fetch now (symbols0.getD cfg.COMPANIES)).1.quotes.flatten.length ∧
     r.summary.historical_records
       = (FMPClient.symbolLoop fetch now (symbols0.getD cfg.COMPANIES)).1.historical.flatten.length) ∧
    ((r.profilesCsv.isSome
        ↔ (FMPClient.symbolLoop fetch now (symbols0.getD cfg.COMPANIES)).1.profiles ≠ []) ∧
     (r.quotesCsv.isSome
        ↔ (FMPClient.symbolLoop fetch now (symbols0.getD cfg.COMPANIES)).1.quotes ≠ []) ∧
     (r.historicalCsv.isSome
        ↔ (FMPClient.symbolLoop fetch now (symbols0.getD cfg.COMPANIES)).1.historical ≠ [])) ∧
    ((∀ df, r.profilesCsv = some df →
        df = (FMPClient.symbolLoop fetch now (symbols0.getD cfg.COMPANIES)).1.profiles.flatten) ∧
     (∀ df, r.quotesCsv = some df →
        df = (FMPClient.symbolLoop fetch now (symbols0.getD cfg.COMPANIES)).1.quotes.flatten) ∧
     (∀ df, r.historicalCsv = some df →
        df = (FMPClient.symbolLoop fetch now (symbols0.getD cfg.COMPANIES)).1.historical.flatten)) := by
  obtain ⟨hs, hp, hq, hh, -, -⟩ := fetch_all_data_fields fetch now cfg symbols0 r h
  refine ⟨⟨by rw [hs], by rw [hs], by rw [hs]⟩, ⟨?_, ?_, ?_⟩,
    (opt_if_cases _ _ _ hp).2, (opt_if_cases _ _ _ hq).2, (opt_if_cases _ _ _ hh).2⟩
  · rw [(opt_if_cases _ _ _ hp).1]
    simp [List.isEmpty_iff]
  · rw [(opt_if_cases _ _ _ hq).1]
    simp [List.isEmpty_iff]
  · rw [(opt_if_cases _ _ _ hh).1]
    simp [List.isEmpty_iff]

/-- C4 witness: when every call is answered 403 for the single symbol
`"XYZ"`, the run completes with an all-zero summary and writes no
output file. -/
theorem c4_summary_counts_and_file_writes_witness :
    FMPClient.fetch_all_data allForbidden 0 cfg0 (some ["XYZ"]) = .ok run403 ∧
    run403.summary = ⟨0, 0, 0⟩ ∧
    run403.profilesCsv = none ∧ run403.quotesCsv = none ∧
    run403.historicalCsv = none ∧ run403.marketCsv = none ∧
    run403.summary.profiles
      = (FMPClient.symbolLoop allForbidden 0
          ((some ["XYZ"]).getD cfg0.COMPANIES)).1.profiles.flatten.length :=
  ⟨rfl, rfl, rfl, rfl, rfl, rfl,
   (c4_summary_counts_and_file_writes allForbidden 0 cfg0 (some ["XYZ"]) run403 rfl).1.1⟩

/-!
## Claim C7 — completion without raising
-/

/-- When every truthy index-quote response is an array of mappings,
the index loop completes without raising and collects only mappings. -/
theorem indexLoop_ok_objs (fetch : Fetch) (l : List String)
    (h : ∀ i ∈ l, ∀ d, fetch ("quote/" ++ i) [] = some d →
        d.truthy = true → ∃ xs, d = .arr xs ∧ xs.all Json.isObj = true) :
    ∀ acc, acc.all Json.isObj = true →
      ∃ res, FMPClient.indexLoop fetch acc l = .ok res ∧
        res.all Json.isObj = true := by
  induction l with
  | nil => exact fun acc hacc => ⟨acc, rfl, hacc⟩
  | cons i rest ih =>
    intro acc hacc
    have hrest : ∀ j ∈ rest, ∀ d, fetch ("quote/" ++ j) [] = some d →
        d.truthy = true → ∃ xs, d = .arr xs ∧ xs.all Json.isObj = true :=
      fun j hj => h j (List.mem_cons_of_mem _ hj)
    unfold FMPClient.indexLoop
    cases hf : fetch ("quote/" ++ i) [] with
    | none => exact ih hrest acc hacc
    | some d =>
      dsimp only
      by_cases htr : d.truthy = true
      · rw [if_pos htr]
        obtain ⟨xs, rfl, hxs⟩ := h i (List.mem_cons_self i rest) d hf htr
        dsimp only [pyExtend]
        have hall : (acc ++ xs).all Json.isObj = true := by
          simp [List.all_append, hacc, hxs]
        exact ih hrest (acc ++ xs) hall
      · rw [if_neg htr]
        exact ih hrest acc hacc

/-- C7 counterexample: the claim says `fetch_all_data` never raises
when the fetch primitive never raises, whatever JSON it returns; a
market-index quote answered with the JSON number `5` makes
`all_data.extend(data)` raise `TypeError`, outside any handler, so the
whole run raises. -/
theorem c7_raises_on_scalar_index_quote :
    FMPClient.fetch_all_data fetchBad 0 cfg0 (some [])
      = .error "TypeError: argument not iterable" := rfl

/-- C7 (amended): for every symbol list (including the default and the
empty list), `fetch_all_data` completes and returns a summary without
raising, given a fetch primitive that never raises and answers each
market-index quote with an absent or falsy value or a JSON array of
mappings (the shape the quote endpoint returns).  The per-symbol loop
absorbs every failure on its own; `get_market_indexes` is unguarded,
and both `all_data.extend(data)` (on a truthy non-iterable) and
`pd.DataFrame(all_data)` (on a mapping-led list with a non-mapping
element) can raise there. -/
theorem c7_completes_without_raising (fetch : Fetch) (now : Int) (cfg : Config)
    (symbols0 : Option (List String))
    (hidx : ∀ i ∈ FMPClient.indexSymbols, ∀ d, fetch ("quote/" ++ i) [] = some d →
        d.truthy = true → ∃ xs, d = .arr xs ∧ xs.all Json.isObj = true) :
    okB (FMPClient.fetch_all_data fetch now cfg symbols0) = true := by
  obtain ⟨res, hres, hobjs⟩ :=
    indexLoop_ok_objs fetch FMPClient.indexSymbols hidx [] rfl
  have hmk : ∃ mk, FMPClient.get_market_indexes fetch = .ok mk := by
    unfold FMPClient.get_market_indexes
    rw [hres]
    dsimp only
    by_cases hre : res.isEmpty
    · exact ⟨[], by rw [if_pos hre]⟩
    · rw [if_neg hre]
      cases res with
      | nil => simp at hre
      | cons r0 tail =>
        rw [List.all_cons, Bool.and_eq_true] at hobjs
        cases r0 with
        | obj fs =>
          dsimp only [pdDataFrame]
          rw [if_pos hobjs.2]
          exact ⟨_, rfl⟩
        | null => simp [Json.isObj] at hobjs
        | bool b => simp [Json.isObj] at hobjs
        | num n => simp [Json.isObj] at hobjs
        | str s => simp [Json.isObj] at hobjs
        | arr ys => simp [Json.isObj] at hobjs
  obtain ⟨mk, hmk⟩ := hmk
  unfold FMPClient.fetch_all_data
  dsimp only
  rw [hmk]
  rfl

/-- C7 witness: the all-forbidden run over the default symbol list
completes without raising. -/
theorem c7_completes_without_raising_witness :
    okB (FMPClient.fetch_all_data allForbidden 0 cfg0 none) = true :=
  c7_completes_without_raising allForbidden 0 cfg0 none
    (by intro i hi d hd htr; simp [allForbidden] at hd)

/-!
## Claim C9 — the fixed 365-day window
-/

/-- C9: in every completed run, each historical-price request carries
exactly the `[now − 365 days, now]` window, and the configured lookback
years have no effect whatsoever on the run. -/
theorem c9_window_fixed_and_lookback_unused (fetch : Fetch) (now : Int)
    (cfg : Config) (symbols0 : Option (List String)) (y : Int) (r : RunResult)
    (h : FMPClient.fetch_all_data fetch now cfg symbols0 = .ok r) :
    (∀ sym ps, ("historical-price-full/" ++ sym, ps) ∈ r.requests →
       ps = histParams now 365) ∧
    FMPClient.fetch_all_data fetch now { cfg with YEARS_TO_FETCH := y } symbols0
      = FMPClient.fetch_all_data fetch now cfg symbols0 := by
  constructor
  · intro sym ps hmem
    obtain ⟨-, -, -, -, -, hreq⟩ := fetch_all_data_fields fetch now cfg symbols0 r h
    rw [hreq, List.mem_append] at hmem
    rcases hmem with hm | hm
    · rw [symbolLoop_reqs, List.mem_flatten] at hm
      obtain ⟨l, hl, hml⟩ := hm
      rw [List.mem_map] at hl
      obtain ⟨s, -, hsl⟩ := hl
      subst hsl
      rcases symbolFetch_reqs_cases fetch now s with hc | hc | hc <;>
        rw [hc] at hml <;>
        simp only [FMPClient.profileReq, FMPClient.quoteReq, FMPClient.histReq,
          List.mem_cons, List.not_mem_nil, or_false, Prod.mk.injEq] at hml
      · exact absurd hml.1 (hist_ne_profile sym s)
      · rcases hml with hml | hml
        · exact absurd hml.1 (hist_ne_profile sym s)
        · exact absurd hml.1 (hist_ne_quote sym s)
      · rcases hml with hml | hml | hml
        · exact absurd hml.1 (hist_ne_profile sym s)
        · exact absurd hml.1 (hist_ne_quote sym s)
        · exact hml.2
    · simp only [FMPClient.indexReqs, FMPClient.indexSymbols, List.map_cons,
        List.map_nil, List.mem_cons, List.not_mem_nil, or_false,
        Prod.mk.injEq] at hm
      rcases hm with hm | hm | hm <;> exact absurd hm.1 (hist_ne_quote sym _)
  · cases cfg
    rfl

/-- C9 witness: a concrete all-forbidden run, where the only historical
request carries the 365-day window and a changed lookback-years value
leaves the run unchanged. -/
theorem c9_window_fixed_and_lookback_unused_witness :
    histParams 0 365 = histParams 0 365 ∧
    FMPClient.fetch_all_data allForbidden 0 { cfg0 with YEARS_TO_FETCH := 99 }
        (some ["A"])
      = FMPClient.fetch_all_data allForbidden 0 cfg0 (some ["A"]) :=
  have h := c9_window_fixed_and_lookback_unused allForbidden 0 cfg0 (some ["A"])
    99 _ rfl
  ⟨h.1 "A" (histParams 0 365) (by decide), h.2⟩
